import Mathlib

/-!
Verification development for the tinychain node (`tinychain.py`).

The data model and the consensus / chain-management operations of the
source file are embedded shallowly: pure Python functions become Lean
functions, the module-level mutable state (active chain, side branches,
UTXO set, mempool, orphan lists) becomes an explicit `NodeState` record
that is threaded through the operations, and Python exceptions become an
explicit error type (`RunErr`).  Application-level exceptions
(`TxnValidationError`, `BlockValidationError`) are distinguished from
interpreter-level errors (`TypeError`, `AttributeError`, ...), because the
source only ever catches the former.

The double-SHA-256 primitive `sha256d` is a call into `hashlib`; it is
modelled as an abstract parameter `H : String → String` that every
hash-dependent operation receives.  Current wall-clock time (`time.time()`)
is likewise passed explicitly as `now : Int`, and ECDSA signature
verification (the `ecdsa` library) as an abstract boolean predicate `V`.

Serialization (`serialize`) is JSON with sorted keys and compact
separators; it is modelled per type as the exact string the source
produces.  For round-trip analysis, the JSON value layer (`json.dumps` /
`json.loads`, a faithful bijection provided by the standard library) is
factored out: `toPrim*` gives the primitive JSON value a Python value
serializes to, and `deserialize*` is the `contents_to_objs` of the source
applied to that value.
-/

set_option autoImplicit false
set_option maxRecDepth 100000

namespace Tinychain

/-- Bytes values (Python `bytes`): a list of byte values, each < 256. -/
abbrev Bytes := List Nat

/-- OutPoint: reference to one output of one transaction. -/
structure OutPoint where
  txid : String
  txout_idx : Nat
  deriving DecidableEq

/-- TxIn: an input of a transaction.  `to_spend` is `none` for coinbase
inputs; `unlock_pk` is `none` there as well (the field is type-hinted
`bytes` in the source but holds `None` for coinbase inputs). -/
structure TxIn where
  to_spend : Option OutPoint
  unlock_sig : Bytes
  unlock_pk : Option Bytes
  sequence : Nat
  deriving DecidableEq

/-- TxOut: an output of a transaction. -/
structure TxOut where
  value : Nat
  to_address : String
  deriving DecidableEq

/-- UnspentTxOut: a UTXO record; `height = -1` marks mempool origin. -/
structure UnspentTxOut where
  value : Nat
  to_address : String
  txid : String
  tx_idx : Nat
  is_coinbase : Bool
  height : Int
  deriving DecidableEq

/-- Transaction. -/
structure Transaction where
  txins : List TxIn
  txouts : List TxOut
  locktime : Option Int
  deriving DecidableEq

/-- Block. -/
structure Block where
  version : Nat
  prev_block_hash : Option String
  merkle_hash : String
  timestamp : Int
  bits : Nat
  nonce : Nat
  txns : List Transaction
  deriving DecidableEq

/-- Params.MAX_BLOCK_SERIALIZED_SIZE. -/
def MAX_BLOCK_SERIALIZED_SIZE : Nat := 1000000

/-- Params.COINBASE_MATURITY. -/
def COINBASE_MATURITY : Int := 2

/-- Params.MAX_FUTURE_BLOCK_TIME. -/
def MAX_FUTURE_BLOCK_TIME : Int := 7200

/-- Params.BELUSHIS_PER_COIN. -/
def BELUSHIS_PER_COIN : Nat := 100000000

/-- Params.TOTAL_COINS. -/
def TOTAL_COINS : Nat := 21000000

/-- Params.MAX_MONEY. -/
def MAX_MONEY : Nat := BELUSHIS_PER_COIN * TOTAL_COINS

/-- Params.INITIAL_DIFFICULTY_BITS. -/
def INITIAL_DIFFICULTY_BITS : Nat := 22

/-- Params.DIFFICULTY_PERIOD_IN_BLOCKS.  In the source this is the float
600.0 (true division of 36000 by 60); modulo with it agrees with integer
modulo on the heights that occur. -/
def DIFFICULTY_PERIOD_IN_BLOCKS : Nat := 600

/-- Interpreter-level Python exceptions (never caught by the source). -/
inductive PyErr where
  | typeError
  | attributeError
  | valueError
  | keyError
  | indexError
  | recursionError
  deriving DecidableEq

/-- Errors raised while running an operation: the application-level
validation exceptions (which carry an optional orphan payload, and which
the source catches in specific places) and interpreter-level exceptions. -/
inductive RunErr where
  | txnValidationError (msg : String) (to_orphan : Option Transaction)
  | blockValidationError (msg : String) (to_orphan : Option Block)
  | pythonError (e : PyErr)
  deriving DecidableEq

/-- Lowercase hex digit for a value < 16. -/
def hexDigitChar (n : Nat) : Char :=
  if n < 10 then Char.ofNat (48 + n) else Char.ofNat (87 + n)

/-- Hex characters of a byte string, two lowercase digits per byte
(binascii.hexlify). -/
def hexChars : Bytes → List Char
  | [] => []
  | b :: r => hexDigitChar (b / 16 % 16) :: hexDigitChar (b % 16) :: hexChars r

/-- binascii.hexlify, decoded to str. -/
def hexlify (bs : Bytes) : String := String.mk (hexChars bs)

/-- Value of one hex character, if any (int(-, 16) accepts both cases). -/
def hexCharVal (c : Char) : Option Nat :=
  if 48 ≤ c.toNat ∧ c.toNat ≤ 57 then some (c.toNat - 48)
  else if 97 ≤ c.toNat ∧ c.toNat ≤ 102 then some (c.toNat - 87)
  else if 65 ≤ c.toNat ∧ c.toNat ≤ 70 then some (c.toNat - 55)
  else none

/-- Fold a list of hex characters into a number; `none` on a non-hex
character (where Python int() raises ValueError). -/
def hexStrVal : List Char → Nat → Option Nat
  | [], acc => some acc
  | c :: r, acc =>
    match hexCharVal c with
    | some v => hexStrVal r (acc * 16 + v)
    | none => none

/-- int(s, 16): `none` where Python raises ValueError. -/
def hexToNat (s : String) : Option Nat :=
  if s.isEmpty then none else hexStrVal s.data 0

/-- binascii.unhexlify on the characters of a string: pairs of hex digits;
`none` (binascii.Error) on odd length or a non-hex character. -/
def unhexChars : List Char → Option Bytes
  | [] => some []
  | [_] => none
  | c1 :: c2 :: r =>
    match hexCharVal c1, hexCharVal c2, unhexChars r with
    | some hi, some lo, some rest => some ((hi * 16 + lo) :: rest)
    | _, _, _ => none

/-- binascii.unhexlify. -/
def unhexlify (s : String) : Option Bytes := unhexChars s.data

/-- str.encode() of an ASCII string, as a byte list. -/
def strBytes (s : String) : Bytes := s.data.map Char.toNat

/-- JSON rendering of an optional string (null preserved). -/
def jsonOptStr : Option String → String
  | none => "null"
  | some s => "\"" ++ s ++ "\""

/-- JSON rendering of an optional int. -/
def jsonOptInt : Option Int → String
  | none => "null"
  | some i => toString i

/-- JSON rendering of a bool. -/
def jsonBool (b : Bool) : String := if b then ("true") else ("false")

/-- serialize(OutPoint): JSON object with sorted keys and compact
separators, carrying the type tag. -/
def serializeOutPoint (p : OutPoint) : String :=
  "\x7b\"_type\":\"OutPoint\",\"txid\":\"" ++ p.txid ++ "\",\"txout_idx\":"
    ++ toString p.txout_idx ++ "\x7d"

/-- JSON rendering of an optional OutPoint. -/
def jsonOptOutPoint : Option OutPoint → String
  | none => "null"
  | some p => serializeOutPoint p

/-- JSON rendering of optional bytes (hex-encoded, null preserved). -/
def jsonOptBytes : Option Bytes → String
  | none => "null"
  | some bs => "\"" ++ hexlify bs ++ "\""

/-- serialize(TxIn).  Key order is sorted: _type, sequence, to_spend,
unlock_pk, unlock_sig. -/
def serializeTxIn (t : TxIn) : String :=
  "\x7b\"_type\":\"TxIn\",\"sequence\":" ++ toString t.sequence
    ++ ",\"to_spend\":" ++ jsonOptOutPoint t.to_spend
    ++ ",\"unlock_pk\":" ++ jsonOptBytes t.unlock_pk
    ++ ",\"unlock_sig\":\"" ++ hexlify t.unlock_sig ++ "\"\x7d"

/-- serialize(TxOut).  Key order: _type, to_address, value. -/
def serializeTxOut (o : TxOut) : String :=
  "\x7b\"_type\":\"TxOut\",\"to_address\":\"" ++ o.to_address
    ++ "\",\"value\":" ++ toString o.value ++ "\x7d"

/-- serialize(Transaction).  Key order: _type, locktime, txins, txouts. -/
def serializeTransaction (tx : Transaction) : String :=
  "\x7b\"_type\":\"Transaction\",\"locktime\":" ++ jsonOptInt tx.locktime
    ++ ",\"txins\":[" ++ String.intercalate (",") (tx.txins.map serializeTxIn)
    ++ "],\"txouts\":[" ++ String.intercalate (",") (tx.txouts.map serializeTxOut)
    ++ "]\x7d"

/-- serialize(Block).  Key order: _type, bits, merkle_hash, nonce,
prev_block_hash, timestamp, txns, version. -/
def serializeBlock (b : Block) : String :=
  "\x7b\"_type\":\"Block\",\"bits\":" ++ toString b.bits
    ++ ",\"merkle_hash\":\"" ++ b.merkle_hash
    ++ "\",\"nonce\":" ++ toString b.nonce
    ++ ",\"prev_block_hash\":" ++ jsonOptStr b.prev_block_hash
    ++ ",\"timestamp\":" ++ toString b.timestamp
    ++ ",\"txns\":[" ++ String.intercalate (",") (b.txns.map serializeTransaction)
    ++ "],\"version\":" ++ toString b.version ++ "\x7d"

/-- The module-level mutable state of the node: active chain, side
branches, orphan blocks, UTXO set, mempool and orphan transactions.
Python dicts are modelled as insertion-ordered association lists. -/
structure NodeState where
  active_chain : List Block
  side_branches : List (List Block)
  orphan_blocks : List Block
  utxo_set : List (OutPoint × UnspentTxOut)
  mempool : List (String × Transaction)
  orphan_txns : List Transaction
  deriving DecidableEq

/-- dict.get. -/
def alistGet {κ ν : Type} [DecidableEq κ] : List (κ × ν) → κ → Option ν
  | [], _ => none
  | (k0, v) :: r, k => if k0 = k then some v else alistGet r k

/-- dict item assignment: existing key keeps its position, a new key is
appended. -/
def alistInsert {κ ν : Type} [DecidableEq κ] : List (κ × ν) → κ → ν → List (κ × ν)
  | [], k, v => [(k, v)]
  | (k0, v0) :: r, k, v =>
    if k0 = k then (k0, v) :: r else (k0, v0) :: alistInsert r k v

/-- dict.pop(k, None): removal that tolerates a missing key. -/
def alistErase {κ ν : Type} [DecidableEq κ] : List (κ × ν) → κ → List (κ × ν)
  | [], _ => []
  | (k0, v0) :: r, k => if k0 = k then r else (k0, v0) :: alistErase r k

/-- dict.pop(k) and del d[k]: `none` where Python raises KeyError. -/
def alistPop {κ ν : Type} [DecidableEq κ] : List (κ × ν) → κ → Option (List (κ × ν))
  | [], _ => none
  | (k0, v0) :: r, k =>
    if k0 = k then some r else (alistPop r k).map (fun r2 => (k0, v0) :: r2)

/-- Python str formatting of an optional hash field (None renders as the
four characters of the word None in an f-string). -/
def optHashStr : Option String → String
  | none => "None"
  | some s => s

/-- Block.header(): concatenation of version, prev_block_hash, merkle_hash,
timestamp, bits and nonce.  Call sites in the validator use the default
nonce argument, so the stored nonce of the block is rendered. -/
def headerStr (b : Block) : String :=
  toString b.version ++ optHashStr b.prev_block_hash ++ b.merkle_hash
    ++ toString b.timestamp ++ toString b.bits ++ toString b.nonce

/-- Block.id = sha256d(header()). -/
def blockId (H : String → String) (b : Block) : String := H (headerStr b)

/-- Transaction.id = sha256d(serialize(txn)). -/
def txnId (H : String → String) (tx : Transaction) : String :=
  H (serializeTransaction tx)

/-- Transaction.is_coinbase: exactly one input and its to_spend is None.
A transaction with an empty input list is not a coinbase. -/
def isCoinbase (tx : Transaction) : Bool :=
  match tx.txins with
  | [i] => i.to_spend.isNone
  | _ => false

/-- Transaction.create_coinbase: single input with to_spend None, the
block height pushed into unlock_sig as its decimal digits, unlock_pk None;
single output paying value to the given address. -/
def createCoinbase (pay_to_addr : String) (value : Nat) (height : Nat) : Transaction :=
  { txins := [{ to_spend := none
              , unlock_sig := strBytes (toString height)
              , unlock_pk := none
              , sequence := 0 }]
  , txouts := [{ value := value, to_address := pay_to_addr }]
  , locktime := none }

/-- The genesis block literal of the source.  Its only transaction has an
empty input list. -/
def genesis_block : Block :=
  { version := 0
  , prev_block_hash := none
  , merkle_hash := "dfef8eb972026bbe9e98b26616fe90e60e3ff223d0a596e78bde6632109d7ef0"
  , timestamp := 1501396299
  , bits := 26
  , nonce := 1845989
  , txns := [{ txins := []
             , txouts := [{ value := 5000000000
                          , to_address := "143UVyz7ooiAv1pMqbwPPpnH4BV9ifJGFF" }]
             , locktime := none }] }

/-- MerkleNode: a hash value together with child nodes (None for leaves,
modelled as the empty list; only the val field is ever observed). -/
inductive MerkleNode where
  | node (val : String) (children : List MerkleNode)

/-- Value of a Merkle node. -/
def MerkleNode.val : MerkleNode → String
  | .node v _ => v

/-- The pair chunks of a list (_chunks(l, 2) destructured as pairs).  A
trailing singleton chunk makes the destructuring fail: Python raises
ValueError (not enough values to unpack). -/
def chunkPairs {α : Type} : List α → Except RunErr (List (α × α))
  | [] => .ok []
  | [_] => .error (.pythonError .valueError)
  | a :: b :: r => (chunkPairs r).map (fun l => (a, b) :: l)

/-- find_root of get_merkle_root.  The unbounded Python recursion is given
explicit fuel (exhaustion maps to RecursionError); one level is consumed
per round, so any fuel of at least the node count is enough.  An empty
level makes the final indexing fail (IndexError).  Note that no
duplication happens here: odd levels crash in chunkPairs. -/
def findRoot (H : String → String) : Nat → List MerkleNode → Except RunErr MerkleNode
  | 0, _ => .error (.pythonError .recursionError)
  | fuel + 1, nodes =>
    match chunkPairs nodes with
    | .error e => .error e
    | .ok prs =>
      let newlevel := prs.map
        (fun pr => MerkleNode.node (H (pr.1.val ++ pr.2.val)) [pr.1, pr.2])
      if 1 < newlevel.length then findRoot H fuel newlevel
      else
        match newlevel with
        | [] => .error (.pythonError .indexError)
        | n :: _ => .ok n

/-- The initial odd-length padding of get_merkle_root: duplicate the last
leaf.  This is the only place the source ever duplicates. -/
def padLeaves (leaves : List String) : List String :=
  if leaves.length % 2 = 1 then leaves ++ leaves.getLast?.toList else leaves

/-- get_merkle_root: pad the leaves to even length, hash each into a leaf
node, then reduce with find_root. -/
def getMerkleRoot (H : String → String) (leaves : List String) : Except RunErr MerkleNode :=
  let lv := padLeaves leaves
  findRoot H (lv.length + 1) (lv.map (fun l => MerkleNode.node (H l) []))

/-- get_merkle_root_of_txns. -/
def getMerkleRootOfTxns (H : String → String) (txns : List Transaction) : Except RunErr MerkleNode :=
  getMerkleRoot H (txns.map (txnId H))

/-- get_current_height. -/
def getCurrentHeight (st : NodeState) : Nat := st.active_chain.length

/-- get_median_time_past: element at index len // 2 of the reversed last n
blocks (no sorting); 0 for an empty chain. -/
def getMedianTimePast (st : NodeState) (n : Nat) : Int :=
  let l := (st.active_chain.reverse).take n
  match l.get? (l.length / 2) with
  | some b => b.timestamp
  | none => 0

/-- Search one chain for a block with the given id, returning it with its
height. -/
def findInChain (H : String → String) (target : String) : List Block → Nat → Option (Block × Nat)
  | [], _ => none
  | b :: r, h =>
    if blockId H b = target then some (b, h) else findInChain H target r (h + 1)

/-- Search a list of chains, returning (block, height, chain index). -/
def findInChains (H : String → String) (target : String) : List (List Block) → Nat → Option (Block × Nat × Nat)
  | [], _ => none
  | c :: cs, i =>
    match findInChain H target c 0 with
    | some (b, h) => some (b, h, i)
    | none => findInChains H target cs (i + 1)

/-- find_block.  A chain argument of None, and likewise an empty chain
argument (both falsy), select the active chain followed by all side
branches.  Call sites that use the default argument pass the active chain
explicitly here: the Python default aliases the module-level list, which
is never rebound on any reachable path (try_reorg, the only rebinding
site, is unreachable due to the arity error in reorg_if_necessary), so
the alias always equals the current active chain.  A block_hash of None
matches nothing. -/
def findBlock (H : String → String) (st : NodeState) (block_hash : Option String)
    (chain : Option (List Block)) : Option Block × Option Nat × Option Nat :=
  let chains : List (List Block) :=
    match chain with
    | none => st.active_chain :: st.side_branches
    | some c => if c.isEmpty then st.active_chain :: st.side_branches else [c]
  match block_hash with
  | none => (none, none, none)
  | some target =>
    match findInChains H target chains 0 with
    | some (b, h, i) => (some b, some h, some i)
    | none => (none, none, none)

/-- get_next_work_required.  A falsy prev_block_hash (None or the empty
string) yields the initial difficulty.  When the previous block is not
found, prev_height is None and the modulo arithmetic on it raises
TypeError.  When a difficulty period boundary is reached, the source
indexes the active chain with a float (DIFFICULTY_PERIOD_IN_BLOCKS is a
true-division float and max returns it unchanged), which raises
TypeError. -/
def getNextWorkRequired (H : String → String) (st : NodeState) (prev_block_hash : Option String) : Except RunErr Nat :=
  match prev_block_hash with
  | none => .ok INITIAL_DIFFICULTY_BITS
  | some s =>
    if s = "" then .ok INITIAL_DIFFICULTY_BITS
    else
      match findBlock H st (some s) none with
      | (some prev_block, some prev_height, _) =>
        if (prev_height + 1) % DIFFICULTY_PERIOD_IN_BLOCKS ≠ 0 then .ok prev_block.bits
        else .error (.pythonError .typeError)
      | _ => .error (.pythonError .typeError)

/-- Sum of the values of a list of outputs. -/
def sumOutputs (l : List TxOut) : Nat := (l.map TxOut.value).sum

/-- Transaction.validate_basics. -/
def validateBasics (tx : Transaction) (as_coinbase : Bool) : Except RunErr Unit :=
  if tx.txouts.isEmpty || (tx.txins.isEmpty && !as_coinbase) then
    .error (.txnValidationError ("Missing txouts or txins") none)
  else if MAX_BLOCK_SERIALIZED_SIZE < (serializeTransaction tx).length then
    .error (.txnValidationError ("Too large") none)
  else if MAX_MONEY < sumOutputs tx.txouts then
    .error (.txnValidationError ("Spend value too high") none)
  else .ok ()

/-- find_utxo_in_mempool.  A coinbase txin (to_spend None) fails at
txin.to_spend.txid with AttributeError.  When the referenced transaction
IS in the mempool, the source calls UnspentTxOut.from_mempool_txn with
found_in_mempool.id — a string — whose txouts attribute access raises
AttributeError.  Only the not-found case returns normally (None). -/
def findUtxoInMempool (_H : String → String) (st : NodeState) (txin : TxIn) : Except RunErr (Option UnspentTxOut) :=
  match txin.to_spend with
  | none => .error (.pythonError .attributeError)
  | some op =>
    match alistGet st.mempool op.txid with
    | some _found => .error (.pythonError .attributeError)
    | none => .ok none

/-- The per-input loop of validate_txn, accumulating available value. -/
def vtLoopTxins (H : String → String) (V : TxIn → UnspentTxOut → Transaction → Bool)
    (st : NodeState) (txn : Transaction) (allow_utxo_from_mempool : Bool) :
    List TxIn → Nat → Except RunErr Nat
  | [], acc => .ok acc
  | txin :: rest, acc =>
    let u0 := txin.to_spend.bind (fun op => alistGet st.utxo_set op)
    let step : Except RunErr (Option UnspentTxOut) :=
      match u0 with
      | some u => .ok (some u)
      | none =>
        if allow_utxo_from_mempool then findUtxoInMempool H st txin else .ok none
    match step with
    | .error e => .error e
    | .ok none =>
      .error (.txnValidationError ("Could find no UTXO for TxIn -- orphaning txn") (some txn))
    | .ok (some utxo) =>
      if utxo.is_coinbase
          && decide (((getCurrentHeight st : Int) - utxo.height) < COINBASE_MATURITY) then
        .error (.txnValidationError ("Coinbase UTXO not ready for spend") none)
      else if !(V txin utxo txn) then
        .error (.txnValidationError ("txin is not a valid spend of utxo") none)
      else vtLoopTxins H V st txn allow_utxo_from_mempool rest (acc + utxo.value)

/-- validate_txn on an already-typed transaction (the string branch, which
merely deserializes first, is not modelled). -/
def validateTxn (H : String → String) (V : TxIn → UnspentTxOut → Transaction → Bool)
    (st : NodeState) (txn : Transaction)
    (as_coinbase allow_utxo_from_mempool : Bool) : Except RunErr Transaction :=
  match validateBasics txn as_coinbase with
  | .error e => .error e
  | .ok _ =>
    match vtLoopTxins H V st txn allow_utxo_from_mempool txn.txins 0 with
    | .error e => .error e
    | .ok available =>
      if available < sumOutputs txn.txouts then
        .error (.txnValidationError ("Spend value is more than available") none)
      else .ok txn

/-- Indices of the coinbase transactions of a block, in order (the list
comprehension of the coinbase check in validate_block). -/
def coinbaseIdxs (txns : List Transaction) : List Nat :=
  ((txns.enum).filter (fun p => isCoinbase p.2)).map (fun p => p.1)

/-- The structural loop of validate_block: validate_basics for each
transaction, the first as coinbase. -/
def vbBasicsLoop : Nat → List Transaction → Except RunErr Unit
  | _, [] => .ok ()
  | i, tx :: rest =>
    match validateBasics tx (i == 0) with
    | .error e => .error e
    | .ok _ => vbBasicsLoop (i + 1) rest

/-- The full-validation loop of validate_block over the non-coinbase
transactions: a TxnValidationError becomes a BlockValidationError, any
interpreter error propagates. -/
def vbTxnsLoop (H : String → String) (V : TxIn → UnspentTxOut → Transaction → Bool)
    (st : NodeState) : List Transaction → Except RunErr Unit
  | [] => .ok ()
  | tx :: rest =>
    match validateTxn H V st tx false false with
    | .error (.txnValidationError _ _) =>
      .error (.blockValidationError ("txn failed to validate") none)
    | .error e => .error e
    | .ok _ => vbTxnsLoop H V st rest

/-- Python truthiness of the prev_block_hash field: None and the empty
string are falsy. -/
def prevFalsy : Option String → Bool
  | none => true
  | some s => s = ""

/-- validate_block on an already-typed block (the string branch is not
modelled).  The checks run in source order: txns nonempty, timestamp not
too far past `now`, proof of work (note: rejection only when the header
hash STRICTLY EXCEEDS the target 2^(256 - bits); a negative shift count,
bits > 256, raises ValueError), exactly one coinbase at index 0,
structural validation of every transaction, Merkle root, expected bits,
median time past, then resolution of the previous block, and full
validation of non-coinbase transactions only when extending the active
chain.  Returns the block with its chain index. -/
def validateBlock (H : String → String) (V : TxIn → UnspentTxOut → Transaction → Bool)
    (now : Int) (st : NodeState) (b : Block) : Except RunErr (Block × Nat) :=
  if b.txns.isEmpty then .error (.blockValidationError ("txns empty") none)
  else if MAX_FUTURE_BLOCK_TIME < b.timestamp - now then
    .error (.blockValidationError ("Block timestamp too far in future") none)
  else
    match hexToNat (blockId H b) with
    | none => .error (.pythonError .valueError)
    | some hv =>
      if 256 < b.bits then .error (.pythonError .valueError)
      else if 2 ^ (256 - b.bits) < hv then
        .error (.blockValidationError ("Block header doesnt satisfy bits") none)
      else if coinbaseIdxs b.txns ≠ [0] then
        .error (.blockValidationError ("First txn must be coinbase and no more") none)
      else
        match vbBasicsLoop 0 b.txns with
        | .error (.txnValidationError _ _) =>
          .error (.blockValidationError ("Invalid txn \x7btxn.id\x7d") none)
        | .error e => .error e
        | .ok _ =>
          match getMerkleRootOfTxns H b.txns with
          | .error e => .error e
          | .ok root =>
            if root.val ≠ b.merkle_hash then
              .error (.blockValidationError ("Merkle hash invalid") none)
            else
              match getNextWorkRequired H st b.prev_block_hash with
              | .error e => .error e
              | .ok req =>
                if req ≠ b.bits then
                  .error (.blockValidationError ("bits is incorrect") none)
                else if b.timestamp ≤ getMedianTimePast st 11 then
                  .error (.blockValidationError ("timestamp too old") none)
                else if prevFalsy b.prev_block_hash && st.active_chain.isEmpty then
                  match vbTxnsLoop H V st (b.txns.drop 1) with
                  | .error e => .error e
                  | .ok _ => .ok (b, 0)
                else
                  match findBlock H st b.prev_block_hash none with
                  | (some prev_block, some _prev_height, some prev_idx) =>
                    if prev_idx ≠ 0 then .ok (b, prev_idx)
                    else if st.active_chain.getLast? ≠ some prev_block then
                      .ok (b, prev_idx + 1)
                    else
                      match vbTxnsLoop H V st (b.txns.drop 1) with
                      | .error e => .error e
                      | .ok _ => .ok (b, 0)
                  | _ =>
                    .error (.blockValidationError ("prev block not found in any chain") (some b))

/-- The inner loop of rm_from_utxo over the inputs of one transaction:
rm_from_utxo(*txin.to_spend) unpacks None with TypeError for a coinbase
style input, and del raises KeyError when the outpoint is not a key. -/
def rmInputs : List (OutPoint × UnspentTxOut) → List TxIn → Except RunErr (List (OutPoint × UnspentTxOut))
  | u, [] => .ok u
  | u, txin :: r =>
    match txin.to_spend with
    | none => .error (.pythonError .typeError)
    | some op =>
      match alistPop u op with
      | none => .error (.pythonError .keyError)
      | some u2 => rmInputs u2 r

/-- add_to_utxo over the enumerated outputs of one transaction. -/
def addOuts (tid : String) (is_cb : Bool) (height : Nat) :
    Nat → List TxOut → List (OutPoint × UnspentTxOut) → List (OutPoint × UnspentTxOut)
  | _, [], u => u
  | i, o :: r, u =>
    addOuts tid is_cb height (i + 1) r
      (alistInsert u { txid := tid, txout_idx := i }
        { value := o.value, to_address := o.to_address, txid := tid
        , tx_idx := i, is_coinbase := is_cb, height := (height : Int) })

/-- The mempool / UTXO update loop of connect_block.  Note that the source
runs this for EVERY chain index, not only for the active chain: each
transaction is popped from the mempool, non-coinbase inputs are removed
from the UTXO set, and all outputs are inserted at the length of the
chain just appended to. -/
def cbTxnsUpdate (H : String → String) (chainLen : Nat) :
    List Transaction → NodeState → Except RunErr NodeState
  | [], st => .ok st
  | tx :: rest, st =>
    let tid := txnId H tx
    let st1 := { st with mempool := alistErase st.mempool tid }
    match (if isCoinbase tx then .ok st1.utxo_set else rmInputs st1.utxo_set tx.txins :
        Except RunErr (List (OutPoint × UnspentTxOut))) with
    | .error e => .error e
    | .ok u2 =>
      cbTxnsUpdate H chainLen rest
        { st1 with utxo_set := addOuts tid (isCoinbase tx) chainLen 0 tx.txouts u2 }

/-- The loop of reorg_if_necessary.  For each side branch the fork is
located via find_block on the parent of the branch root (on its default chain
argument, aliasing the active chain).  If the parent is in no chain,
fork_idx is None and the height arithmetic raises TypeError.  When a
branch is higher than the active chain, the source calls try_reorg with
a single argument although try_reorg takes three: TypeError.  So the
loop can only ever complete with False (no state change) or crash. -/
def rinLoop (H : String → String) (st : NodeState) : List (List Block) → Except RunErr Bool
  | [] => .ok false
  | br :: rest =>
    match br.head? with
    | none => .error (.pythonError .indexError)
    | some b0 =>
      match (findBlock H st b0.prev_block_hash (some st.active_chain)).2.1 with
      | none => .error (.pythonError .typeError)
      | some fork_idx =>
        if st.active_chain.length < br.length + fork_idx then
          .error (.pythonError .typeError)
        else rinLoop H st rest

/-- reorg_if_necessary. -/
def reorgIfNecessary (H : String → String) (st : NodeState) : Except RunErr Bool :=
  rinLoop H st st.side_branches

/-- idx_to_chain followed by chain.append(block): the target chain with
the block appended, together with the resulting chain length (the height
used by the UTXO inserts).  A chain index beyond the side branches raises
IndexError. -/
def idxToChainAppend (st : NodeState) (chain_idx : Nat) (b : Block) : Option (NodeState × Nat) :=
  if chain_idx = 0 then
    some ({ st with active_chain := st.active_chain ++ [b] }, st.active_chain.length + 1)
  else
    match st.side_branches.get? (chain_idx - 1) with
    | none => none
    | some br =>
      some ({ st with side_branches := st.side_branches.set (chain_idx - 1) (br ++ [b]) },
        br.length + 1)

/-- connect_block on an already-typed block.  A BlockValidationError is
caught: an orphan payload is appended to orphan_blocks and None is
returned (here: (none, state)).  Interpreter errors propagate.  On
success: drop silently if the block id is already known (the find_block
default chain argument again aliases the active chain), append to the
indexed chain, run the mempool / UTXO update for every chain index, then
reorg_if_necessary.  The mining interrupt and peer gossip have no effect
on node state and are not modelled. -/
def connectBlock (H : String → String) (V : TxIn → UnspentTxOut → Transaction → Bool)
    (now : Int) (st : NodeState) (b : Block) : Except RunErr (Option Nat × NodeState) :=
  match validateBlock H V now st b with
  | .error (.blockValidationError _msg orphan) =>
    let st2 :=
      match orphan with
      | some ob => { st with orphan_blocks := st.orphan_blocks ++ [ob] }
      | none => st
    .ok (none, st2)
  | .error e => .error e
  | .ok (bv, chain_idx) =>
    match (findBlock H st (some (blockId H bv)) (some st.active_chain)).1 with
    | some _ => .ok (none, st)
    | none =>
      match idxToChainAppend st chain_idx bv with
      | none => .error (.pythonError .indexError)
      | some (st1, chainLen) =>
        match cbTxnsUpdate H chainLen bv.txns st1 with
        | .error e => .error e
        | .ok st2 =>
          match reorgIfNecessary H st2 with
          | .error e => .error e
          | .ok _reorged => .ok (some chain_idx, st2)

/-- list.pop(i): the list without its element at index i; `none`
(IndexError) when out of range. -/
def popIdx {α : Type} : List α → Nat → Option (List α)
  | [], _ => none
  | _ :: r, 0 => some r
  | x :: r, n + 1 => (popIdx r n).map (fun r2 => x :: r2)

/-- mempool.pop(txn_id) for each id, with KeyError on a missing key. -/
def mempoolRemoveAll : List (String × Transaction) → List String → Option (List (String × Transaction))
  | m, [] => some m
  | m, tid :: r =>
    match alistPop m tid with
    | none => none
    | some m2 => mempoolRemoveAll m2 r

/-- Insertion of a list of (id, txn) pairs into the mempool, in order. -/
def mempoolAddAll : List (String × Transaction) → List (String × Transaction) → List (String × Transaction)
  | m, [] => m
  | m, (tid, tx) :: r => mempoolAddAll (alistInsert m tid tx) r

/-- The dict comprehension building the additions of mempool_mods: one
entry per branch transaction, keyed by id (later duplicates overwrite). -/
def buildAddDict (H : String → String) : List Transaction → List (String × Transaction) → List (String × Transaction)
  | [], d => d
  | t :: r, d => buildAddDict H r (alistInsert d (txnId H t) t)

/-- The validation loop of try_reorg.  cur is the current value of the
global active chain (initially active[:fork_idx] + branch; each block
that validates is appended AGAIN).  On a BlockValidationError the active
chain is reset to current[:fork_idx] + old_active_branch — note the
missing fork block — and False is returned with everything else
untouched.  On completion the branch slot is popped, the old active tail
appended as a side branch and the mempool modifications applied. -/
def trLoop (H : String → String) (V : TxIn → UnspentTxOut → Transaction → Bool) (now : Int)
    (st : NodeState) (old_ab : List Block) (fork_idx branch_idx : Nat)
    (addMods : List (String × Transaction)) (rmMods : List String) :
    List Block → List Block → Except RunErr (Bool × NodeState)
  | [], cur =>
    match popIdx st.side_branches branch_idx with
    | none => .error (.pythonError .indexError)
    | some side2 =>
      match mempoolRemoveAll st.mempool rmMods with
      | none => .error (.pythonError .keyError)
      | some mp2 =>
        .ok (true, { st with active_chain := cur
                           , side_branches := side2 ++ [old_ab]
                           , mempool := mempoolAddAll mp2 addMods })
  | blk :: rest, cur =>
    match validateBlock H V now { st with active_chain := cur } blk with
    | .error (.blockValidationError _ _) =>
      .ok (false, { st with active_chain := cur.take fork_idx ++ old_ab })
    | .error e => .error e
    | .ok _ => trLoop H V now st old_ab fork_idx branch_idx addMods rmMods rest (cur ++ [blk])

/-- try_reorg(branch, branch_idx, fork_idx).  old_active_branch is
active[fork_idx + 1 :]; the chain is replaced by active[: fork_idx] +
branch (the fork block itself at index fork_idx is dropped by the slice),
the branch is validated block by block, and the mempool modifications are
computed from the branch and the old tail. -/
def tryReorg (H : String → String) (V : TxIn → UnspentTxOut → Transaction → Bool) (now : Int)
    (st : NodeState) (branch : List Block) (branch_idx fork_idx : Nat) : Except RunErr (Bool × NodeState) :=
  let old_ab := st.active_chain.drop (fork_idx + 1)
  let addMods := buildAddDict H ((branch.map Block.txns).flatten) []
  let rmMods := ((old_ab.map Block.txns).flatten).map (txnId H)
  trLoop H V now st old_ab fork_idx branch_idx addMods rmMods branch
    (st.active_chain.take fork_idx ++ branch)

/-- The txin resolution loop of add_to_block.  An input found in the UTXO
set is skipped.  Otherwise find_utxo_in_mempool is consulted: it raises
AttributeError both for a coinbase-style input and whenever the mempool
actually contains the referenced transaction; only a miss returns None,
upon which add_to_block returns None (false here).  (The recursive call
that would add a mempool parent passes one argument to the two-parameter
add_to_block and would raise TypeError, but it is unreachable: a mempool
hit already crashed inside find_utxo_in_mempool.) -/
def txinScan (utxo_set : List (OutPoint × UnspentTxOut)) (mempool : List (String × Transaction)) :
    List TxIn → Except RunErr Bool
  | [] => .ok true
  | txin :: rest =>
    match txin.to_spend with
    | none => .error (.pythonError .attributeError)
    | some op =>
      if (alistGet utxo_set op).isSome then txinScan utxo_set mempool rest
      else
        match alistGet mempool op.txid with
        | some _ => .error (.pythonError .attributeError)
        | none => .ok false

/-- check_block_size of select_from_mempool: the parameter is IGNORED;
the closure reads the enclosing block variable, whose value at every call
site equals the block value from before the candidate transaction was
added.  serialize(None) is the four-character string null, always under
the cap. -/
def sizeCheckOB : Option Block → Bool
  | none => true
  | some blk => (serializeBlock blk).length < MAX_BLOCK_SERIALIZED_SIZE

/-- add_to_block(block, txid) of select_from_mempool.  An id already
added returns the block unchanged; the transaction is fetched from the
mempool (KeyError when absent); its inputs are resolved (txinScan); then
newblock = block + [tx] (AttributeError when block is None), and the size
check — of the OLD block, see sizeCheckOB — decides whether newblock is
returned and the id recorded, or the old block returned. -/
def addToBlockM (utxo_set : List (OutPoint × UnspentTxOut)) (mempool : List (String × Transaction))
    (added : List String) (ob : Option Block) (txid : String) : Except RunErr (Option Block × List String) :=
  if added.contains txid then .ok (ob, added)
  else
    match alistGet mempool txid with
    | none => .error (.pythonError .keyError)
    | some tx =>
      match txinScan utxo_set mempool tx.txins with
      | .error e => .error e
      | .ok false => .ok (none, added)
      | .ok true =>
        match ob with
        | none => .error (.pythonError .attributeError)
        | some blk =>
          let newblock := { blk with txns := blk.txns ++ [tx] }
          if sizeCheckOB (some blk) then .ok (some newblock, added ++ [txid])
          else .ok (some blk, added)

/-- The outer loop of select_from_mempool over the mempool iteration
order: after each add_to_block call the size of the PRE-CALL block is
checked; when it is (still) under the cap, the result — possibly None —
becomes the current block; otherwise the loop breaks and the pre-call
block is returned. -/
def sfmLoop (utxo_set : List (OutPoint × UnspentTxOut)) (mempool : List (String × Transaction)) :
    List String → List String → Option Block → Except RunErr (Option Block)
  | [], _, ob => .ok ob
  | txid :: rest, added, ob =>
    match addToBlockM utxo_set mempool added ob txid with
    | .error e => .error e
    | .ok (nb, added2) =>
      if sizeCheckOB ob then sfmLoop utxo_set mempool rest added2 nb
      else .ok ob

/-- select_from_mempool. -/
def selectFromMempool (utxo_set : List (OutPoint × UnspentTxOut)) (mempool : List (String × Transaction))
    (block : Block) : Except RunErr (Option Block) :=
  sfmLoop utxo_set mempool (mempool.map (fun p => p.1)) [] (some block)

/-- Primitive JSON values, the intermediate form between a typed value
and its serialized text: serialize = json.dumps of this form (sorted
keys, modelled by listing object fields in sorted order), deserialize =
contents_to_objs of json.loads, which yields this form back.  The
json.dumps / json.loads pair is standard-library code and a bijection on
these values; the repository-level round trip is therefore analyzed as
deserialize* after toPrim*. -/
inductive Prim where
  | null
  | pint (n : Int)
  | pbool (b : Bool)
  | pstr (s : String)
  | plist (l : List Prim)
  | pobj (fields : List (String × Prim))

/-- Primitive form of an OutPoint. -/
def toPrimOutPoint (p : OutPoint) : Prim :=
  .pobj [(("_type"), .pstr ("OutPoint")), (("txid"), .pstr p.txid),
    (("txout_idx"), .pint (p.txout_idx : Int))]

/-- Primitive form of an optional OutPoint (None preserved as null). -/
def toPrimOptOutPoint : Option OutPoint → Prim
  | none => .null
  | some p => toPrimOutPoint p

/-- Primitive form of optional bytes: hexlified string, None as null. -/
def toPrimOptBytes : Option Bytes → Prim
  | none => .null
  | some bs => .pstr (hexlify bs)

/-- Primitive form of an optional int. -/
def toPrimOptInt : Option Int → Prim
  | none => .null
  | some i => .pint i

/-- Primitive form of an optional string. -/
def toPrimOptStr : Option String → Prim
  | none => .null
  | some s => .pstr s

/-- Primitive form of a TxIn (fields in sorted key order). -/
def toPrimTxIn (t : TxIn) : Prim :=
  .pobj [(("_type"), .pstr ("TxIn")), (("sequence"), .pint (t.sequence : Int)),
    (("to_spend"), toPrimOptOutPoint t.to_spend),
    (("unlock_pk"), toPrimOptBytes t.unlock_pk),
    (("unlock_sig"), .pstr (hexlify t.unlock_sig))]

/-- Primitive form of a TxOut. -/
def toPrimTxOut (o : TxOut) : Prim :=
  .pobj [(("_type"), .pstr ("TxOut")), (("to_address"), .pstr o.to_address),
    (("value"), .pint (o.value : Int))]

/-- Primitive form of an UnspentTxOut. -/
def toPrimUnspentTxOut (u : UnspentTxOut) : Prim :=
  .pobj [(("_type"), .pstr ("UnspentTxOut")), (("height"), .pint u.height),
    (("is_coinbase"), .pbool u.is_coinbase),
    (("to_address"), .pstr u.to_address),
    (("tx_idx"), .pint (u.tx_idx : Int)),
    (("txid"), .pstr u.txid),
    (("value"), .pint (u.value : Int))]

/-- Primitive form of a Transaction. -/
def toPrimTransaction (tx : Transaction) : Prim :=
  .pobj [(("_type"), .pstr ("Transaction")), (("locktime"), toPrimOptInt tx.locktime),
    (("txins"), .plist (tx.txins.map toPrimTxIn)),
    (("txouts"), .plist (tx.txouts.map toPrimTxOut))]

/-- Primitive form of a Block. -/
def toPrimBlock (b : Block) : Prim :=
  .pobj [(("_type"), .pstr ("Block")), (("bits"), .pint (b.bits : Int)),
    (("merkle_hash"), .pstr b.merkle_hash),
    (("nonce"), .pint (b.nonce : Int)),
    (("prev_block_hash"), toPrimOptStr b.prev_block_hash),
    (("timestamp"), .pint b.timestamp),
    (("txns"), .plist (b.txns.map toPrimTransaction)),
    (("version"), .pint (b.version : Int))]

/-- Field access of the decoded object; a missing key means the keyword
construction _type(**o) fails: TypeError. -/
def getField : List (String × Prim) → String → Except RunErr Prim
  | [], _ => .error (.pythonError .typeError)
  | (k0, v) :: r, k => if k0 = k then .ok v else getField r k

/-- A decoded int field holding a non-negative Python int. -/
def primNat : Prim → Except RunErr Nat
  | .pint n => .ok n.toNat
  | _ => .error (.pythonError .typeError)

/-- A decoded int field. -/
def primInt : Prim → Except RunErr Int
  | .pint n => .ok n
  | _ => .error (.pythonError .typeError)

/-- A decoded string field. -/
def primStr : Prim → Except RunErr String
  | .pstr s => .ok s
  | _ => .error (.pythonError .typeError)

/-- A decoded bool field. -/
def primBool : Prim → Except RunErr Bool
  | .pbool b => .ok b
  | _ => .error (.pythonError .typeError)

/-- A decoded optional int field (null preserved as None). -/
def primOptInt : Prim → Except RunErr (Option Int)
  | .null => .ok none
  | .pint n => .ok (some n)
  | _ => .error (.pythonError .typeError)

/-- A decoded optional string field. -/
def primOptStr : Prim → Except RunErr (Option String)
  | .null => .ok none
  | .pstr s => .ok (some s)
  | _ => .error (.pythonError .typeError)

/-- A decoded list field. -/
def primList : Prim → Except RunErr (List Prim)
  | .plist l => .ok l
  | _ => .error (.pythonError .typeError)

/-- The unhexlify step applied to a field in bytes_keys AFTER generic
decoding: a string is unhexlified (binascii.Error, a ValueError, on bad
hex); anything else — in particular the None of a coinbase unlock_pk —
raises TypeError inside unhexlify. -/
def primBytes : Prim → Except RunErr Bytes
  | .pstr s =>
    match unhexlify s with
    | some bs => .ok bs
    | none => .error (.pythonError .valueError)
  | _ => .error (.pythonError .typeError)

/-- mapM over Except for list-valued fields. -/
def mapExcept {α β : Type} (f : α → Except RunErr β) : List α → Except RunErr (List β)
  | [] => .ok []
  | a :: r => do
    let b ← f a
    let rest ← mapExcept f r
    pure (b :: rest)

/-- deserialize of an OutPoint object. -/
def deserializeOutPoint (p : Prim) : Except RunErr OutPoint :=
  match p with
  | .pobj fs => do
    let tname ← primStr (← getField fs ("_type"))
    if tname = "OutPoint" then do
      let tid ← primStr (← getField fs ("txid"))
      let idx ← primNat (← getField fs ("txout_idx"))
      pure { txid := tid, txout_idx := idx }
    else .error (.pythonError .typeError)
  | _ => .error (.pythonError .typeError)

/-- deserialize of an optional OutPoint (to_spend). -/
def deserializeOptOutPoint : Prim → Except RunErr (Option OutPoint)
  | .null => .ok none
  | p => (deserializeOutPoint p).map some

/-- deserialize of a TxIn object.  get_type_hints marks unlock_sig and
unlock_pk as bytes keys, so both go through unhexlify after decoding —
which crashes with TypeError on the null unlock_pk of a coinbase input.
A successfully decoded TxIn therefore always carries some unlock_pk. -/
def deserializeTxIn (p : Prim) : Except RunErr TxIn :=
  match p with
  | .pobj fs => do
    let tname ← primStr (← getField fs ("_type"))
    if tname = "TxIn" then do
      let seq ← primNat (← getField fs ("sequence"))
      let ts ← deserializeOptOutPoint (← getField fs ("to_spend"))
      let pk ← primBytes (← getField fs ("unlock_pk"))
      let sig ← primBytes (← getField fs ("unlock_sig"))
      pure { to_spend := ts, unlock_sig := sig, unlock_pk := some pk, sequence := seq }
    else .error (.pythonError .typeError)
  | _ => .error (.pythonError .typeError)

/-- deserialize of a TxOut object. -/
def deserializeTxOut (p : Prim) : Except RunErr TxOut :=
  match p with
  | .pobj fs => do
    let tname ← primStr (← getField fs ("_type"))
    if tname = "TxOut" then do
      let addr ← primStr (← getField fs ("to_address"))
      let v ← primNat (← getField fs ("value"))
      pure { value := v, to_address := addr }
    else .error (.pythonError .typeError)
  | _ => .error (.pythonError .typeError)

/-- deserialize of an UnspentTxOut object (no bytes keys). -/
def deserializeUnspentTxOut (p : Prim) : Except RunErr UnspentTxOut :=
  match p with
  | .pobj fs => do
    let tname ← primStr (← getField fs ("_type"))
    if tname = "UnspentTxOut" then do
      let h ← primInt (← getField fs ("height"))
      let cb ← primBool (← getField fs ("is_coinbase"))
      let addr ← primStr (← getField fs ("to_address"))
      let ti ← primNat (← getField fs ("tx_idx"))
      let tid ← primStr (← getField fs ("txid"))
      let v ← primNat (← getField fs ("value"))
      pure { value := v, to_address := addr, txid := tid, tx_idx := ti
           , is_coinbase := cb, height := h }
    else .error (.pythonError .typeError)
  | _ => .error (.pythonError .typeError)

/-- deserialize of a Transaction object. -/
def deserializeTransaction (p : Prim) : Except RunErr Transaction :=
  match p with
  | .pobj fs => do
    let tname ← primStr (← getField fs ("_type"))
    if tname = "Transaction" then do
      let lk ← primOptInt (← getField fs ("locktime"))
      let ins ← mapExcept deserializeTxIn (← primList (← getField fs ("txins")))
      let outs ← mapExcept deserializeTxOut (← primList (← getField fs ("txouts")))
      pure { txins := ins, txouts := outs, locktime := lk }
    else .error (.pythonError .typeError)
  | _ => .error (.pythonError .typeError)

/-- deserialize of a Block object. -/
def deserializeBlock (p : Prim) : Except RunErr Block :=
  match p with
  | .pobj fs => do
    let tname ← primStr (← getField fs ("_type"))
    if tname = "Block" then do
      let bits ← primNat (← getField fs ("bits"))
      let mh ← primStr (← getField fs ("merkle_hash"))
      let nonce ← primNat (← getField fs ("nonce"))
      let prev ← primOptStr (← getField fs ("prev_block_hash"))
      let ts ← primInt (← getField fs ("timestamp"))
      let txns ← mapExcept deserializeTransaction (← primList (← getField fs ("txns")))
      let v ← primNat (← getField fs ("version"))
      pure { version := v, prev_block_hash := prev, merkle_hash := mh
           , timestamp := ts, bits := bits, nonce := nonce, txns := txns }
    else .error (.pythonError .typeError)
  | _ => .error (.pythonError .typeError)

/-- Reference Merkle padding, following the words of the specification:
if the current level has odd length, duplicate the last element. -/
def specPadLevel (lvl : List String) : List String :=
  if lvl.length % 2 = 1 then lvl ++ lvl.getLast?.toList else lvl

/-- Reference pairing: each internal node is sha256d of the concatenation
of its two children. -/
def specPairHash (H : String → String) : List String → List String
  | a :: b :: r => H (a ++ b) :: specPairHash H r
  | _ => []

/-- Reference Merkle reduction, following the words of the specification:
pad the level to even length, pair-hash, and repeat until a single root
node survives.  Undefined (None, via fuel) for an empty input. -/
def specMerkleLevel (H : String → String) : Nat → List String → Option String
  | 0, _ => none
  | fuel + 1, lvl =>
    let nxt := specPairHash H (specPadLevel lvl)
    match nxt with
    | [] => none
    | [r] => some r
    | _ => specMerkleLevel H fuel nxt

/-- Reference Merkle root over a list of txids: the first level hashes
each txid, and the reduction runs until one root survives.  This is the
comparison point for get_merkle_root. -/
def specMerkleRoot (H : String → String) (txids : List String) : Option String :=
  specMerkleLevel H (txids.length + 1) (txids.map H)

/-- Validity of a modelled byte string: every entry is an actual byte.
Python bytes objects satisfy this by construction. -/
def bytesOKb (bs : Bytes) : Bool := bs.all (fun b => decide (b < 256))

/-- A TxIn whose byte fields are actual bytes and whose unlock_pk is not
None (the serialized form of a None unlock_pk does not deserialize). -/
def txinOKb (t : TxIn) : Bool :=
  bytesOKb t.unlock_sig &&
    (match t.unlock_pk with
     | some pk => bytesOKb pk
     | none => false)

/-- A transaction all of whose inputs satisfy txinOKb. -/
def txnOKb (tx : Transaction) : Bool := tx.txins.all txinOKb

/-- A block all of whose transactions satisfy txnOKb. -/
def blockOKb (b : Block) : Bool := b.txns.all txnOKb

/-- A signature verifier that accepts everything (the ECDSA library is
external; the concrete scenarios below never reach signature checks). -/
def trueV : TxIn → UnspentTxOut → Transaction → Bool := fun _ _ _ => true

/-- The initial node state: everything empty. -/
def emptyState : NodeState :=
  { active_chain := [], side_branches := [], orphan_blocks := []
  , utxo_set := [], mempool := [], orphan_txns := [] }

/-- A minimal coinbase-shaped transaction used by the concrete scenarios:
one input with to_spend None, one output of value 1. -/
def cbTxSimple : Transaction :=
  { txins := [{ to_spend := none, unlock_sig := [48], unlock_pk := none, sequence := 0 }]
  , txouts := [{ value := 1, to_address := "a" }]
  , locktime := none }

/-- Hex rendering of 2 ^ 234 (the PoW target for bits = 22): the digit 4
followed by 58 zeros. -/
def targetHex234 : String :=
  "40000000000000000000000000000000000000000000000000000000000"

/-- A concrete stand-in hash for the boundary scenario of the PoW check:
the header of blockC2 hashes exactly to the target 2 ^ 234; every other
string hashes to ab (so the single txid and the Merkle values are all
ab). -/
def hashC2 : String → String :=
  fun s => if s = "0Noneab1220" then targetHex234 else ("ab")

/-- A block whose header hash under hashC2 equals its PoW target exactly:
genesis-style (no previous block), bits 22, merkle hash ab matching the
computed root over its single coinbase transaction. -/
def blockC2 : Block :=
  { version := 0, prev_block_hash := none, merkle_hash := "ab"
  , timestamp := 1, bits := 22, nonce := 0, txns := [cbTxSimple] }

/-- A constant stand-in hash for scenarios where hash values are
irrelevant. -/
def hashConstAA : String → String := fun _ => "aa"

/-- Chain fixture for the reorg_if_necessary crash: one active block. -/
def blkG3 : Block :=
  { version := 0, prev_block_hash := none, merkle_hash := "m"
  , timestamp := 1, bits := 22, nonce := 0, txns := [] }

/-- First block of the overtaking side branch (parent is blkG3, whose id
under hashConstAA is aa). -/
def blkB31 : Block :=
  { version := 0, prev_block_hash := some ("aa"), merkle_hash := "m"
  , timestamp := 1, bits := 22, nonce := 0, txns := [] }

/-- Second block of the overtaking side branch. -/
def blkB32 : Block :=
  { version := 0, prev_block_hash := some ("aa"), merkle_hash := "m"
  , timestamp := 2, bits := 22, nonce := 1, txns := [] }

/-- State with a side branch strictly higher than the active chain. -/
def stC3 : NodeState :=
  { active_chain := [blkG3], side_branches := [[blkB31, blkB32]]
  , orphan_blocks := [], utxo_set := [], mempool := [], orphan_txns := [] }

/-- Fork block of the try_reorg rollback scenario. -/
def blkG4 : Block :=
  { version := 0, prev_block_hash := none, merkle_hash := "m"
  , timestamp := 1, bits := 22, nonce := 0, txns := [] }

/-- Old tip above the fork block. -/
def blkA4 : Block :=
  { version := 0, prev_block_hash := some ("g"), merkle_hash := "m"
  , timestamp := 2, bits := 22, nonce := 1, txns := [] }

/-- A candidate branch block that fails validation (empty txns). -/
def blkBad4 : Block :=
  { version := 0, prev_block_hash := some ("x"), merkle_hash := "m"
  , timestamp := 1, bits := 22, nonce := 0, txns := [] }

/-- A nonempty mempool and UTXO set, to observe that a failed reorg does
not touch them. -/
def stC4 : NodeState :=
  { active_chain := [blkG4, blkA4], side_branches := [[blkBad4]]
  , orphan_blocks := []
  , utxo_set := [({ txid := "u", txout_idx := 0 },
      { value := 3, to_address := "w", txid := "u", tx_idx := 0
      , is_coinbase := false, height := 1 })]
  , mempool := [(("t"), cbTxSimple)], orphan_txns := [] }

/-- Concrete stand-in hash for the side-branch connect scenario: the
headers of blkB51 and blkB52 get distinct ids, everything else (including
the genesis-style header and the single txid) hashes to 0a. -/
def hashC5 : String → String :=
  fun s => if s = "00am2220" then ("b1") else if s = "0b10a3220" then ("b2") else ("0a")

/-- Active genesis of the side-branch connect scenario (id 0a). -/
def blkG5 : Block :=
  { version := 0, prev_block_hash := none, merkle_hash := "m"
  , timestamp := 1, bits := 22, nonce := 0, txns := [] }

/-- Active tip (id 0a, header distinct from blkB51 by its nonce). -/
def blkA5 : Block :=
  { version := 0, prev_block_hash := some ("0a"), merkle_hash := "m"
  , timestamp := 2, bits := 22, nonce := 1, txns := [] }

/-- Side-branch root, child of blkG5 (id b1). -/
def blkB51 : Block :=
  { version := 0, prev_block_hash := some ("0a"), merkle_hash := "m"
  , timestamp := 2, bits := 22, nonce := 0, txns := [] }

/-- The block to be connected to the side branch: child of blkB51, with a
single coinbase transaction and the matching Merkle root 0a (id b2). -/
def blkB52 : Block :=
  { version := 0, prev_block_hash := some ("b1"), merkle_hash := "0a"
  , timestamp := 3, bits := 22, nonce := 0, txns := [cbTxSimple] }

/-- State for the side-branch connect: active chain of two blocks, a side
branch of one, and a mempool entry under the id of the coinbase
transaction of blkB52. -/
def stC5 : NodeState :=
  { active_chain := [blkG5, blkA5], side_branches := [[blkB51]]
  , orphan_blocks := [], utxo_set := []
  , mempool := [(("0a"), cbTxSimple)], orphan_txns := [] }

/-- A mempool transaction with one output, the target of a mempool UTXO
lookup. -/
def txMem8 : Transaction :=
  { txins := [], txouts := [{ value := 7, to_address := "b" }], locktime := none }

/-- A transaction spending output 0 of txMem8 by mempool key t1. -/
def txSpend8 : Transaction :=
  { txins := [{ to_spend := some { txid := "t1", txout_idx := 0 }
              , unlock_sig := [1], unlock_pk := some [2], sequence := 0 }]
  , txouts := [{ value := 1, to_address := "a" }], locktime := none }

/-- State whose mempool holds txMem8 under key t1 and whose UTXO set is
empty, forcing the mempool lookup. -/
def stC8 : NodeState :=
  { active_chain := [], side_branches := [], orphan_blocks := []
  , utxo_set := [], mempool := [(("t1"), txMem8)], orphan_txns := [] }

/-- A 500001-byte unlock_sig, hex-serializing to 1000002 characters. -/
def bigSig : Bytes := List.replicate 500001 0

/-- A mempool transaction larger than the whole block size cap, spending
an outpoint that is in the UTXO set. -/
def txBig9 : Transaction :=
  { txins := [{ to_spend := some { txid := "p", txout_idx := 0 }
              , unlock_sig := bigSig, unlock_pk := some [2], sequence := 0 }]
  , txouts := [{ value := 1, to_address := "a" }], locktime := none }

/-- UTXO set resolving the input of txBig9. -/
def utxo9 : List (OutPoint × UnspentTxOut) :=
  [({ txid := "p", txout_idx := 0 },
    { value := 5, to_address := "me", txid := "p", tx_idx := 0
    , is_coinbase := false, height := 1 })]

/-- Mempool holding txBig9 under key t1. -/
def mempool9 : List (String × Transaction) := [(("t1"), txBig9)]

/-- The small starting block of the greedy fill. -/
def blkB90 : Block :=
  { version := 0, prev_block_hash := none, merkle_hash := "m"
  , timestamp := 5, bits := 22, nonce := 0, txns := [] }

/-- The oversized block select_from_mempool returns. -/
def blkB91 : Block := { blkB90 with txns := [txBig9] }

/-- A block with the PoW boundary witness shape: empty txns, bits 256. -/
def blockW2 : Block :=
  { version := 0, prev_block_hash := none, merkle_hash := ""
  , timestamp := 0, bits := 256, nonce := 0, txns := [] }

/-- Stand-in hash whose value 02 exceeds the target 1 of blockW2. -/
def hashW2 : String → String := fun _ => "02"

/-- A non-coinbase transaction with fully-populated byte fields, for the
round-trip witness. -/
def txW7 : Transaction :=
  { txins := [{ to_spend := some { txid := "ff", txout_idx := 1 }
              , unlock_sig := [0, 255], unlock_pk := some [171], sequence := 3 }]
  , txouts := [{ value := 9, to_address := "addr" }], locktime := some 7 }

/-- A block holding txW7, for the round-trip witness. -/
def blockW7 : Block :=
  { version := 1, prev_block_hash := some ("pp"), merkle_hash := "mm"
  , timestamp := 4, bits := 22, nonce := 5, txns := [txW7] }

@[simp] theorem exceptBind_ok {α β : Type} (a : α) (f : α → Except RunErr β) :
    (Bind.bind (Except.ok a : Except RunErr α) f) = f a := rfl

@[simp] theorem exceptBind_error {α β : Type} (e : RunErr) (f : α → Except RunErr β) :
    (Bind.bind (Except.error e : Except RunErr α) f) = Except.error e := rfl

/-- C3: reorg_if_necessary never reaches a working try_reorg call.  On the
concrete state stC3 — a one-block active chain and a two-block side branch
rooted at it, so branch height 2 exceeds active height 1 — the call
try_reorg(chain) with a single argument (try_reorg takes branch,
branch_idx, fork_idx) raises TypeError instead of reorganizing. -/
theorem c3_reorg_arity_crash :
    reorgIfNecessary hashConstAA stC3 = .error (.pythonError .typeError) := by rfl

/-- C8: with allow_utxo_from_mempool, an input whose outpoint is absent
from the UTXO set but whose transaction t1 is present in the mempool is
NOT resolved to the mempool output: find_utxo_in_mempool passes the id
string to UnspentTxOut.from_mempool_txn and validate_txn dies with
AttributeError instead of proceeding. -/
theorem c8_mempool_utxo_lookup_crash :
    validateTxn hashConstAA trueV stC8 txSpend8 false true
      = .error (.pythonError .attributeError) := by rfl

/-- C6 counterexample: on six leaves, get_merkle_root is NOT defined: the
internal level of three nodes makes the pair destructuring fail
(ValueError), while the reference computation of the specification (which
duplicates at every odd level) does produce a root. -/
theorem c6_six_leaves_crash :
    getMerkleRoot hashConstAA [("a"), ("b"), ("c"), ("d"), ("e"), ("f")]
        = .error (.pythonError .valueError)
    ∧ (specMerkleRoot hashConstAA [("a"), ("b"), ("c"), ("d"), ("e"), ("f")]).isSome = true :=
  ⟨rfl, rfl⟩

/-- C7 counterexample: the coinbase transaction built by
Transaction.create_coinbase does not survive the round trip: the
unlock_pk of its input is None, serialized as null, and deserialize feeds it to
unhexlify, raising TypeError. -/
theorem c7_coinbase_txin_roundtrip_fails :
    deserializeTransaction (toPrimTransaction
        (createCoinbase ("143UVyz7ooiAv1pMqbwPPpnH4BV9ifJGFF") 5000000000 0))
      = .error (.pythonError .typeError) := by rfl

/-- C4: a failed try_reorg does NOT restore the prior active chain.  On
stC4 (active chain fork block blkG4 plus tip blkA4, candidate branch of
one invalid block applied at fork index 0), try_reorg returns False with
the mempool, UTXO set and side branches untouched, but the resulting
active chain is [blkA4]: the fork block at index fork_idx has been
dropped by the active_chain[:fork_idx] slices. -/
theorem c4_failed_reorg_drops_fork_block :
    tryReorg hashConstAA trueV 5 stC4 [blkBad4] 0 0
        = .ok (false, { stC4 with active_chain := [blkA4] })
    ∧ ({ stC4 with active_chain := [blkA4] } : NodeState) ≠ stC4 :=
  ⟨rfl, by decide⟩

/-- C5: connect_block mutates the UTXO set and the mempool even when the
validated block goes to a side branch.  Connecting blkB52 (validated to
chain index 1) appends it to the side branch as the claim describes, but
ALSO pops its transaction from the mempool and inserts its output into
the UTXO set: the update loop is not guarded by the chain index. -/
theorem c5_side_branch_connect_mutates :
    connectBlock hashC5 trueV 3 stC5 blkB52
        = .ok (some 1,
          { stC5 with side_branches := [[blkB51, blkB52]]
                    , mempool := []
                    , utxo_set := [({ txid := "0a", txout_idx := 0 },
                        { value := 1, to_address := "a", txid := "0a", tx_idx := 0
                        , is_coinbase := true, height := 2 })] })
    ∧ ([] : List (String × Transaction)) ≠ stC5.mempool
    ∧ [(({ txid := "0a", txout_idx := 0 } : OutPoint),
        ({ value := 1, to_address := "a", txid := "0a", tx_idx := 0
         , is_coinbase := true, height := 2 } : UnspentTxOut))] ≠ stC5.utxo_set :=
  ⟨rfl, by decide, by decide⟩

/-- C2 counterexample: a block whose header hash equals 2 ^ (256 - bits)
exactly — so its hash is NOT strictly below the target — nevertheless
passes validate_block completely: the source only rejects a hash that
strictly exceeds the target. -/
theorem c2_target_boundary_counterexample :
    hexToNat (blockId hashC2 blockC2) = some (2 ^ (256 - blockC2.bits))
    ∧ validateBlock hashC2 trueV 1 emptyState blockC2 = .ok (blockC2, 0) :=
  ⟨rfl, rfl⟩

@[simp] theorem intercalate_singleton (s a : String) : String.intercalate s [a] = a := rfl

theorem hexChars_length : ∀ bs : Bytes, (hexChars bs).length = 2 * bs.length
  | [] => rfl
  | b :: r => by
    simp [hexChars, hexChars_length r]
    omega

theorem hexlify_length (bs : Bytes) : (hexlify bs).length = 2 * bs.length := by
  simp [hexlify, hexChars_length]

/-- C9: select_from_mempool does NOT honor the 1 MB cap: its size check
ignores its argument and measures the block from before the addition, so
a transaction that blows the budget is still accepted.  On utxo9 /
mempool9 / blkB90 the returned block serializes to more than
MAX_BLOCK_SERIALIZED_SIZE bytes. -/
theorem c9_block_size_cap_violated :
    selectFromMempool utxo9 mempool9 blkB90 = .ok (some blkB91)
    ∧ MAX_BLOCK_SERIALIZED_SIZE < (serializeBlock blkB91).length := by
  constructor
  · rfl
  · have hlen : bigSig.length = 500001 := List.length_replicate 500001 0
    have hbig : (hexlify bigSig).length = 1000002 := by
      rw [hexlify_length, hlen]
    simp only [serializeBlock, blkB91, blkB90, txBig9, serializeTransaction,
      serializeTxIn, serializeTxOut, jsonOptInt, jsonOptOutPoint, jsonOptBytes,
      serializeOutPoint, jsonOptStr, List.map, intercalate_singleton,
      String.length_append, hbig]
    decide

/-- C1: connecting the literal genesis block to the empty node state does
NOT succeed.  Its only transaction has no inputs, so it is not a coinbase
and the coinbase check of validate_block rejects the block (when the
header hash happens to exceed the target, the PoW check rejects it even
earlier) — for EVERY hash function and any current time that does not put
the genesis timestamp in the far future.  connect_block therefore returns
None and the state is unchanged: the height stays 0 and the UTXO set
stays empty, against the claimed height 1 and singleton UTXO set. -/
theorem c1_genesis_connect_rejected (H : String → String)
    (V : TxIn → UnspentTxOut → Transaction → Bool) (now : Int)
    (h1 : genesis_block.timestamp - now ≤ MAX_FUTURE_BLOCK_TIME)
    (h2 : (hexToNat (blockId H genesis_block)).isSome = true) :
    connectBlock H V now emptyState genesis_block = .ok (none, emptyState) := by
  obtain ⟨n, hn⟩ := Option.isSome_iff_exists.mp h2
  have h1' : ¬ (MAX_FUTURE_BLOCK_TIME < genesis_block.timestamp - now) := not_lt.mpr h1
  have ht : genesis_block.txns.isEmpty = false := rfl
  have hb : ¬ (256 < genesis_block.bits) := by decide
  have hcb : ¬ (coinbaseIdxs genesis_block.txns = [0]) := by decide
  have hval : ∃ msg, validateBlock H V now emptyState genesis_block
      = .error (.blockValidationError msg none) := by
    by_cases hpow : 2 ^ (256 - genesis_block.bits) < n
    · exact ⟨("Block header doesnt satisfy bits"),
        by simp [validateBlock, ht, hn, h1', hb, hcb, hpow]⟩
    · exact ⟨("First txn must be coinbase and no more"),
        by simp [validateBlock, ht, hn, h1', hb, hcb, hpow]⟩
  obtain ⟨msg, hmsg⟩ := hval
  simp [connectBlock, hmsg]

/-- C1 witness: the theorem applied at a concrete hash stand-in and at
the genesis timestamp itself. -/
theorem c1_genesis_connect_rejected_witness :
    connectBlock (fun _ => "00") trueV 1501396299 emptyState genesis_block
      = .ok (none, emptyState) :=
  c1_genesis_connect_rejected (fun _ => "00") trueV 1501396299 (by decide) (by decide)

/-- C2 amended: the proof-of-work rejection is at STRICTLY GREATER than
the target: every block (with a well-formed hash and bits at most 256)
whose header hash strictly exceeds 2 ^ (256 - bits) is rejected with a
BlockValidationError — by the PoW check itself, or by the txns / timestamp
checks that precede it.  (A hash exactly equal to the target passes the
check; see the counterexample.) -/
theorem c2_pow_reject_amended (H : String → String)
    (V : TxIn → UnspentTxOut → Transaction → Bool) (now : Int) (st : NodeState)
    (b : Block) (n : Nat)
    (h1 : hexToNat (blockId H b) = some n)
    (h2 : b.bits ≤ 256)
    (h3 : 2 ^ (256 - b.bits) < n) :
    ∃ msg, validateBlock H V now st b = .error (.blockValidationError msg none) := by
  have h2' : ¬ (256 < b.bits) := not_lt.mpr h2
  cases ht : b.txns.isEmpty with
  | true => exact ⟨("txns empty"), by simp [validateBlock, ht]⟩
  | false =>
    by_cases htime : MAX_FUTURE_BLOCK_TIME < b.timestamp - now
    · exact ⟨("Block timestamp too far in future"), by simp [validateBlock, ht, htime]⟩
    · exact ⟨("Block header doesnt satisfy bits"),
        by simp [validateBlock, ht, htime, h1, h2', h3]⟩

/-- C2 witness: a block of bits 256 (target 1) whose header hashes to 02. -/
theorem c2_pow_reject_amended_witness :
    ∃ msg, validateBlock hashW2 trueV 0 emptyState blockW2
      = .error (.blockValidationError msg none) :=
  c2_pow_reject_amended hashW2 trueV 0 emptyState blockW2 2
    (by decide) (by decide) (by decide)

/-- C10: Transaction.is_coinbase holds exactly for a transaction with a
single input whose to_spend is None; consequently the only transaction
of the genesis block (which has no inputs) is not a coinbase, and the list of
coinbase indices of the genesis transactions is not [0], so the coinbase
requirement of validate_block fails on the genesis block. -/
theorem c10_is_coinbase_characterization :
    (∀ tx : Transaction, isCoinbase tx = true ↔ ∃ i, tx.txins = [i] ∧ i.to_spend = none)
    ∧ genesis_block.txns.map isCoinbase = [false]
    ∧ coinbaseIdxs genesis_block.txns ≠ [0] := by
  refine ⟨?_, by decide, by decide⟩
  intro tx
  rcases tx with ⟨ins, outs, lk⟩
  cases ins with
  | nil => simp [isCoinbase]
  | cons a t =>
    cases t with
    | nil => cases ha : a.to_spend <;> simp [isCoinbase, ha]
    | cons b t2 => simp [isCoinbase]

theorem hexVal_hexDigitChar (n : Nat) (h : n < 16) : hexCharVal (hexDigitChar n) = some n := by
  interval_cases n <;> decide

theorem unhexChars_hexChars : ∀ bs : Bytes, (∀ b ∈ bs, b < 256) →
    unhexChars (hexChars bs) = some bs
  | [], _ => rfl
  | b :: r, h => by
    have h16a : b / 16 % 16 < 16 := Nat.mod_lt _ (by norm_num)
    have h16b : b % 16 < 16 := Nat.mod_lt _ (by norm_num)
    have ih := unhexChars_hexChars r (fun x hx => h x (List.mem_cons_of_mem b hx))
    have hb : b < 256 := h b (List.mem_cons_self b r)
    simp [hexChars, unhexChars, hexVal_hexDigitChar _ h16a, hexVal_hexDigitChar _ h16b, ih]
    omega

theorem unhexlify_hexlify (bs : Bytes) (h : ∀ b ∈ bs, b < 256) :
    unhexlify (hexlify bs) = some bs :=
  unhexChars_hexChars bs h

theorem bytesOKb_lt (bs : Bytes) (h : bytesOKb bs = true) : ∀ b ∈ bs, b < 256 := by
  simpa [bytesOKb, List.all_eq_true] using h

theorem roundtrip_outpoint (p : OutPoint) :
    deserializeOutPoint (toPrimOutPoint p) = .ok p := rfl

theorem roundtrip_optOutPoint (ts : Option OutPoint) :
    deserializeOptOutPoint (toPrimOptOutPoint ts) = .ok ts := by
  cases ts with
  | none => rfl
  | some p =>
    show (deserializeOutPoint (toPrimOutPoint p)).map some = .ok (some p)
    rw [roundtrip_outpoint]
    rfl

theorem roundtrip_txout (o : TxOut) : deserializeTxOut (toPrimTxOut o) = .ok o := rfl

theorem roundtrip_utxo (u : UnspentTxOut) :
    deserializeUnspentTxOut (toPrimUnspentTxOut u) = .ok u := rfl

theorem roundtrip_txin (t : TxIn) (h : txinOKb t = true) :
    deserializeTxIn (toPrimTxIn t) = .ok t := by
  rcases t with ⟨ts, sig, pk, seq⟩
  cases pk with
  | none => simp [txinOKb, bytesOKb] at h
  | some pk =>
    rw [txinOKb, Bool.and_eq_true] at h
    have hs := bytesOKb_lt sig h.1
    have hp := bytesOKb_lt pk h.2
    simp [deserializeTxIn, toPrimTxIn, getField, primStr, primNat, primBytes,
      toPrimOptBytes, unhexlify_hexlify sig hs, unhexlify_hexlify pk hp,
      roundtrip_optOutPoint]

theorem roundtrip_txin_list : ∀ l : List TxIn, (∀ i ∈ l, txinOKb i = true) →
    mapExcept deserializeTxIn (l.map toPrimTxIn) = .ok l
  | [], _ => rfl
  | i :: r, h => by
    have h1 := roundtrip_txin i (h i (List.mem_cons_self i r))
    have h2 := roundtrip_txin_list r (fun x hx => h x (List.mem_cons_of_mem i hx))
    simp [mapExcept, h1, h2]

theorem roundtrip_txout_list : ∀ l : List TxOut,
    mapExcept deserializeTxOut (l.map toPrimTxOut) = .ok l
  | [] => rfl
  | o :: r => by simp [mapExcept, roundtrip_txout, roundtrip_txout_list r]

theorem roundtrip_txn (tx : Transaction) (h : txnOKb tx = true) :
    deserializeTransaction (toPrimTransaction tx) = .ok tx := by
  rcases tx with ⟨ins, outs, lk⟩
  have hins : ∀ i ∈ ins, txinOKb i = true := by
    simpa [txnOKb, List.all_eq_true] using h
  have hlk : primOptInt (toPrimOptInt lk) = .ok lk := by cases lk <;> rfl
  simp [deserializeTransaction, toPrimTransaction, getField, primStr, primList, hlk,
    roundtrip_txin_list ins hins, roundtrip_txout_list outs]

theorem roundtrip_txn_list : ∀ l : List Transaction, (∀ t ∈ l, txnOKb t = true) →
    mapExcept deserializeTransaction (l.map toPrimTransaction) = .ok l
  | [], _ => rfl
  | t :: r, h => by
    have h1 := roundtrip_txn t (h t (List.mem_cons_self t r))
    have h2 := roundtrip_txn_list r (fun x hx => h x (List.mem_cons_of_mem t hx))
    simp [mapExcept, h1, h2]

theorem roundtrip_block (b : Block) (h : blockOKb b = true) :
    deserializeBlock (toPrimBlock b) = .ok b := by
  rcases b with ⟨v, prev, mh, ts, bits, nonce, txns⟩
  have htx : ∀ t ∈ txns, txnOKb t = true := by
    simpa [blockOKb, List.all_eq_true] using h
  have hprev : primOptStr (toPrimOptStr prev) = .ok prev := by cases prev <;> rfl
  simp [deserializeBlock, toPrimBlock, getField, primStr, primInt, primNat, primList,
    hprev, roundtrip_txn_list txns htx]

/-- C7 amended: the serialization round trip deserialize(serialize(x)) = x
holds for OutPoint, TxOut and UnspentTxOut values unconditionally, and for
TxIn, Transaction and Block values whose inputs carry a non-None unlock_pk
(with byte fields made of actual bytes) — but NOT for coinbase inputs,
whose null unlock_pk makes deserialize raise TypeError (see the
counterexample). -/
theorem c7_roundtrip_amended :
    (∀ p : OutPoint, deserializeOutPoint (toPrimOutPoint p) = .ok p)
    ∧ (∀ o : TxOut, deserializeTxOut (toPrimTxOut o) = .ok o)
    ∧ (∀ u : UnspentTxOut, deserializeUnspentTxOut (toPrimUnspentTxOut u) = .ok u)
    ∧ (∀ t : TxIn, txinOKb t = true → deserializeTxIn (toPrimTxIn t) = .ok t)
    ∧ (∀ tx : Transaction, txnOKb tx = true →
        deserializeTransaction (toPrimTransaction tx) = .ok tx)
    ∧ (∀ b : Block, blockOKb b = true → deserializeBlock (toPrimBlock b) = .ok b) :=
  ⟨roundtrip_outpoint, roundtrip_txout, roundtrip_utxo, roundtrip_txin,
    roundtrip_txn, roundtrip_block⟩

/-- C7 witness: the round trip evaluated on a concrete block with a
fully-populated non-coinbase transaction. -/
theorem c7_roundtrip_amended_witness :
    deserializeBlock (toPrimBlock blockW7) = .ok blockW7 :=
  c7_roundtrip_amended.2.2.2.2.2 blockW7 (by decide)

@[simp] theorem exceptMap_ok {α β : Type} (f : α → β) (a : α) :
    (Except.map f (.ok a : Except RunErr α)) = .ok (f a) := rfl

@[simp] theorem exceptMap_error {α β : Type} (f : α → β) (e : RunErr) :
    (Except.map f (.error e : Except RunErr α)) = .error e := rfl

theorem chunkPairs_even {α : Type} : ∀ l : List α, l.length % 2 = 0 →
    ∃ prs, chunkPairs l = .ok prs ∧ prs.length = l.length / 2
  | [], _ => ⟨[], rfl, by simp⟩
  | [_], h => by simp at h
  | a :: b :: r, h => by
    have h2 : r.length % 2 = 0 := by simp at h; omega
    obtain ⟨prs, h1, hlen⟩ := chunkPairs_even r h2
    refine ⟨(a, b) :: prs, by simp [chunkPairs, h1], ?_⟩
    simp [hlen]
    omega

theorem chunk_map_vals (H : String → String) : ∀ (l : List MerkleNode) (prs : List (MerkleNode × MerkleNode)),
    chunkPairs l = .ok prs →
    (prs.map (fun pr => MerkleNode.node (H (pr.1.val ++ pr.2.val)) [pr.1, pr.2])).map MerkleNode.val
      = specPairHash H (l.map MerkleNode.val)
  | [], prs, h => by
    simp [chunkPairs] at h
    subst h
    rfl
  | [_], prs, h => by simp [chunkPairs] at h
  | a :: b :: r, prs, h => by
    rw [chunkPairs] at h
    cases hr : chunkPairs r with
    | error e => rw [hr] at h; simp at h
    | ok tail =>
      rw [hr] at h
      simp at h
      subst h
      have ihr := chunk_map_vals H r tail hr
      simp only [List.map_cons, specPairHash]
      rw [ihr]
      rfl

/-- Padding is the identity on even-length levels. -/
theorem specPadLevel_of_even (l : List String) (h : ¬ (l.length % 2 = 1)) :
    specPadLevel l = l := by
  rw [specPadLevel, if_neg h]

theorem findRoot_pow2 (H : String → String) : ∀ (k : Nat) (nodes : List MerkleNode)
    (fuel1 fuel2 : Nat), nodes.length = 2 ^ (k + 1) → k < fuel1 → k < fuel2 →
    ∃ r, findRoot H fuel1 nodes = .ok r ∧
      specMerkleLevel H fuel2 (nodes.map MerkleNode.val) = some r.val := by
  intro k
  induction k with
  | zero =>
    intro nodes fuel1 fuel2 hlen hf1 hf2
    have hlen2 : nodes.length = 2 := by simpa using hlen
    cases fuel1 with
    | zero => omega
    | succ f1 =>
      cases fuel2 with
      | zero => omega
      | succ f2 =>
        cases nodes with
        | nil => simp at hlen2
        | cons a t =>
          cases t with
          | nil => simp at hlen2
          | cons b t2 =>
            cases t2 with
            | cons c t3 => simp only [List.length_cons] at hlen2; omega
            | nil =>
              refine ⟨MerkleNode.node (H (a.val ++ b.val)) [a, b], rfl, ?_⟩
              simp only [List.map_cons, List.map_nil, specMerkleLevel]
              rw [specPadLevel_of_even _ (by simp)]
              simp [specPairHash, MerkleNode.val]
  | succ k ih =>
    intro nodes fuel1 fuel2 hlen hf1 hf2
    cases fuel1 with
    | zero => omega
    | succ f1 =>
      cases fuel2 with
      | zero => omega
      | succ f2 =>
        have hpow : 0 < 2 ^ (k + 1) := Nat.pos_pow_of_pos _ (by norm_num)
        have h2le : 2 ≤ 2 ^ (k + 1) := by
          have h0 : 0 < 2 ^ k := Nat.pos_pow_of_pos _ (by norm_num)
          rw [Nat.pow_succ]
          omega
        have heven : nodes.length % 2 = 0 := by
          rw [hlen, Nat.pow_succ]
          exact Nat.mul_mod_left _ 2
        obtain ⟨prs, hch, hplen⟩ := chunkPairs_even nodes heven
        have hplen2 : prs.length = 2 ^ (k + 1) := by
          rw [hplen, hlen, Nat.pow_succ]
          omega
        cases prs with
        | nil => simp only [List.length_nil] at hplen2; omega
        | cons p1 pt =>
          cases pt with
          | nil => simp only [List.length_cons, List.length_nil] at hplen2; omega
          | cons p2 prest =>
            have hvals := chunk_map_vals H nodes (p1 :: p2 :: prest) hch
            have hnl : ((p1 :: p2 :: prest).map
                (fun pr => MerkleNode.node (H (pr.1.val ++ pr.2.val)) [pr.1, pr.2])).length
                = 2 ^ (k + 1) := by
              simpa using hplen2
            obtain ⟨r, hr1, hr2⟩ := ih ((p1 :: p2 :: prest).map
                (fun pr => MerkleNode.node (H (pr.1.val ++ pr.2.val)) [pr.1, pr.2]))
              f1 f2 hnl (by omega) (by omega)
            refine ⟨r, ?_, ?_⟩
            · have hgt : 1 < ((p1 :: p2 :: prest).map
                  (fun pr => MerkleNode.node (H (pr.1.val ++ pr.2.val)) [pr.1, pr.2])).length := by
                simp only [List.length_map, List.length_cons]
                omega
              simp only [findRoot, hch]
              rw [if_pos hgt]
              exact hr1
            · have hne : ¬ ((nodes.map MerkleNode.val).length % 2 = 1) := by
                simp only [List.length_map]
                omega
              rw [specMerkleLevel, specPadLevel_of_even _ hne, ← hvals]
              simp only [List.map_cons]
              exact hr2

/-- The padding of the reference level over mapped hashes agrees with
mapping over the padded leaves. -/
theorem specPadLevel_map (H : String → String) (leaves : List String) :
    specPadLevel (leaves.map H) = (padLeaves leaves).map H := by
  simp only [specPadLevel, padLeaves, List.length_map]
  split
  · simp only [List.map_append, List.getLast?_map]
    cases leaves.getLast? <;> simp
  · rfl

theorem padLeaves_length_le (leaves : List String) :
    (padLeaves leaves).length ≤ leaves.length + 1 := by
  rw [padLeaves]
  split
  · simp only [List.length_append]
    cases leaves.getLast? <;> simp
  · omega

/-- C6 amended: get_merkle_root duplicates only at the leaf level, so it
is defined and agrees with the reference computation of the spec exactly
when no internal level has odd length — that is, when the leaf count
(padded to even) is a power of two; on other leaf counts (for example 6)
the computation fails rather than returning a root. -/
theorem c6_merkle_pow2_amended (H : String → String) (leaves : List String) (k : Nat)
    (hp : (padLeaves leaves).length = 2 ^ (k + 1)) :
    ∃ r, getMerkleRoot H leaves = .ok r ∧ specMerkleRoot H leaves = some r.val := by
  have hklt : k < 2 ^ (k + 1) :=
    lt_of_lt_of_le (Nat.lt_two_pow k) (Nat.pow_le_pow_right (by norm_num) (by omega))
  have hlen : ((padLeaves leaves).map (fun l => MerkleNode.node (H l) [])).length
      = 2 ^ (k + 1) := by simpa using hp
  have hfuel1 : k < (padLeaves leaves).length + 1 := by omega
  have hfuel2 : k < leaves.length + 1 := by
    have := padLeaves_length_le leaves
    omega
  obtain ⟨r, hr1, hr2⟩ := findRoot_pow2 H k
    ((padLeaves leaves).map (fun l => MerkleNode.node (H l) []))
    ((padLeaves leaves).length + 1) (leaves.length + 1) hlen hfuel1 hfuel2
  refine ⟨r, hr1, ?_⟩
  have hmapval : ((padLeaves leaves).map (fun l => MerkleNode.node (H l) [])).map MerkleNode.val
      = (padLeaves leaves).map H := by
    simp [List.map_map, Function.comp, MerkleNode.val]
  rw [hmapval] at hr2
  have hne : ¬ (((padLeaves leaves).map H).length % 2 = 1) := by
    simp only [List.length_map, hp, Nat.pow_succ]
    omega
  have hstep : specMerkleLevel H (leaves.length + 1) (leaves.map H)
      = specMerkleLevel H (leaves.length + 1) ((padLeaves leaves).map H) := by
    rw [specMerkleLevel, specMerkleLevel, specPadLevel_map, specPadLevel_of_even _ hne]
  rw [specMerkleRoot, hstep]
  exact hr2

/-- C6 witness: the agreement evaluated at four leaves (padded length 4). -/
theorem c6_merkle_pow2_amended_witness :
    ∃ r, getMerkleRoot (fun s => s) [("a"), ("b"), ("c"), ("d")] = .ok r
      ∧ specMerkleRoot (fun s => s) [("a"), ("b"), ("c"), ("d")] = some r.val :=
  c6_merkle_pow2_amended (fun s => s) [("a"), ("b"), ("c"), ("d")] 1 (by decide)

end Tinychain
